import Mathlib

/-!
Shallow embedding of the CSV import/export reconciliation logic of the
YIN-PIMS repository:

* `ImportMembersModal.tsx` — club-member importer (`processFile`,
  `handleImport`);
* `ImportParticipantsModal` (src/unnamed/part_004) — participants importer
  (`processFile`, `handleImport`);
* `ImportVolunteersModal` (src/unnamed/part_005) — volunteer importer
  (`processFile`, `handleImport`);
* `ExportParticipantsModal.tsx` — export builder (`handleExport`).

CSV rows are association lists from column name to string value (the output
of `parseCsv`); a missing column reads as JS `undefined`, modelled by
`Option.none`.  JS truthiness of a string-or-undefined value is
`truthy`.  Asynchronous persistence calls that may throw are modelled by
`CallResult`.
-/

namespace YinPims

/-- A parsed CSV row: column name ↦ cell string, in file order. -/
structure Row where
  cells : List (String × String)
deriving Repr, DecidableEq

/-- JS property access `row.Col`: `none` models `undefined`. -/
def Row.get (r : Row) (k : String) : Option String :=
  (r.cells.find? (fun c => c.1 == k)).map (·.2)

/-- `Object.values(row).every(val => !val)`: every cell is a falsy string. -/
def Row.allBlank (r : Row) : Bool :=
  r.cells.all (fun c => c.2.isEmpty)

/-- Whitespace recognised by JS `String.prototype.trim` (ASCII part). -/
def jsIsSpace (c : Char) : Bool :=
  c == ' ' || c == '\t' || c == '\n' || c == '\r' || c == '\x0b' || c == '\x0c'

/-- JS `s.trim()`: strip leading and trailing whitespace.  Defined
structurally over the character list so it evaluates in the kernel. -/
def jsTrim (s : String) : String :=
  ⟨((s.data.dropWhile jsIsSpace).reverse.dropWhile jsIsSpace).reverse⟩

/-- JS `s.toLowerCase()` (ASCII case fold, as all compared data is ASCII). -/
def jsToLower (s : String) : String :=
  ⟨s.data.map Char.toLower⟩

/-- JS truthiness of a `string | undefined` value. -/
def truthy : Option String → Bool
  | none => false
  | some s => !s.isEmpty

/-- JS `a || b` on `string | undefined` values (first truthy wins). -/
def jsOr (a b : Option String) : Option String :=
  if truthy a then a else b

/-- The slice of `Participant` (types.ts) that the importers read. -/
structure Participant where
  id : String
  name : String
  contact : String
  institution : String
deriving Repr, DecidableEq

/-- `ClubMembership` join record (types.ts). -/
structure ClubMembership where
  participantId : String
  clubId : String
deriving Repr, DecidableEq

/-- The slice of `Club` (types.ts) that the club importer reads. -/
structure Club where
  id : String
  institution : String
deriving Repr, DecidableEq

/-- Outcome of an awaited persistence call: returned, or threw. -/
inductive CallResult (α : Type) where
  | ok : α → CallResult α
  | thrown : CallResult α
deriving Repr, DecidableEq

/-! ## Club-member importer (`ImportMembersModal.tsx`) -/

/-- The `ImportStatus` union of `ImportMembersModal.tsx`. -/
inductive ClubStatus where
  | newP          -- 'New Participant'
  | existingP     -- 'Existing Participant'
  | alreadyMember -- 'Already a Member'
  | invalid       -- 'Invalid Data'
deriving Repr, DecidableEq

/-- `clubMemberships.filter(cm => cm.clubId === club.id).map(cm => cm.participantId)`. -/
def clubMemberIds (memberships : List ClubMembership) (clubId : String) : List String :=
  (memberships.filter (fun m => m.clubId == clubId)).map (·.participantId)

/-- Core of the club importer's per-row classification
(`ImportMembersModal.tsx`, `processFile`): raw `row.Name` / `row.Contact`
truthiness check, then `participants.find(p => p.name === row.Name &&
p.contact === row.Contact)` (exact, untrimmed, case-sensitive equality),
then the member-id set check. -/
def clubClassifyCore (participants : List Participant) (memberIds : List String)
    (name contact : Option String) : ClubStatus :=
  if !truthy name || !truthy contact then .invalid
  else
    match participants.find? (fun p => some p.name == name && some p.contact == contact) with
    | some p => if memberIds.contains p.id then .alreadyMember else .existingP
    | none => .newP

/-- Club importer's `processFile` validation map: classifies each parsed row
(no row is ever dropped). -/
def clubProcessFile (club : Club) (participants : List Participant)
    (memberships : List ClubMembership) (rows : List Row) : List (Row × ClubStatus) :=
  rows.map (fun r =>
    (r, clubClassifyCore participants (clubMemberIds memberships club.id)
          (r.get "Name") (r.get "Contact")))

/-- The `stats` record of the club importer's `handleImport`
(`{ new: 0, existing: 0, skipped: 0 }` — it has no `failed` field). -/
structure ClubStats where
  new : Nat
  existing : Nat
  skipped : Nat
deriving Repr, DecidableEq

/-- Persistence environment of the club importer.  `addParticipant` models
`addParticipant(fields, club.id)`, which returns the created participant,
a falsy value, or throws; `addClubMembership` models
`addClubMembership(participantId, club.id)`. -/
structure ClubEnv where
  addParticipant : Row → CallResult (Option Participant)
  addClubMembership : String → CallResult Bool

/-- The `for`-loop of the club importer's `handleImport`.  The loop body has
no `try`/`catch`, so a thrown persistence call rejects the whole run
(`CallResult.thrown`): no later row is processed and no summary is built.
State: the `stats` record and `tempParticipants` (initialised to
`[...participants]`, extended by `push` on successful creations). -/
def clubImportLoop (env : ClubEnv) :
    List (Row × ClubStatus) → ClubStats → List Participant → CallResult ClubStats
  | [], stats, _ => .ok stats
  | (row, st) :: rest, stats, temp =>
    match st with
    | .invalid =>
      clubImportLoop env rest { stats with skipped := stats.skipped + 1 } temp
    | .alreadyMember =>
      clubImportLoop env rest { stats with skipped := stats.skipped + 1 } temp
    | .newP =>
      match env.addParticipant row with
      | .thrown => .thrown
      | .ok none =>
        clubImportLoop env rest { stats with skipped := stats.skipped + 1 } temp
      | .ok (some p) =>
        clubImportLoop env rest { stats with new := stats.new + 1 } (temp ++ [p])
    | .existingP =>
      match temp.find? (fun p =>
          some p.name == row.get "Name" && some p.contact == row.get "Contact") with
      | some p =>
        match env.addClubMembership p.id with
        | .thrown => .thrown
        | .ok true =>
          clubImportLoop env rest { stats with existing := stats.existing + 1 } temp
        | .ok false =>
          clubImportLoop env rest { stats with skipped := stats.skipped + 1 } temp
      | none =>
        clubImportLoop env rest { stats with skipped := stats.skipped + 1 } temp

/-- Club importer's `handleImport` over a preview sequence. -/
def clubHandleImport (env : ClubEnv) (participants : List Participant)
    (preview : List (Row × ClubStatus)) : CallResult ClubStats :=
  clubImportLoop env preview ⟨0, 0, 0⟩ participants

/-- Sum of the club-import counters. -/
def ClubStats.total (s : ClubStats) : Nat :=
  s.new + s.existing + s.skipped

/-! ## Participants importer (`ImportParticipantsModal`, src/unnamed/part_004) -/

/-- The `ImportStatus` union of `ImportParticipantsModal`. -/
inductive PartStatus where
  | newP          -- 'New Participant'
  | alreadyExists -- 'Participant Already Exists'
  | invalid       -- 'Invalid Data'
deriving Repr, DecidableEq

/-- Snapshot-side composite key of the participants importer:
`` `${p.name.trim().toLowerCase()}_${p.contact.trim()}` ``. -/
def partSnapshotKey (name contact : String) : String :=
  jsToLower (jsTrim name) ++ "_" ++ jsTrim contact

/-- `participantMap.has(key)` for the map
`new Map(participants.map(p => [partSnapshotKey, p]))`. -/
def partMapHas (participants : List Participant) (key : String) : Bool :=
  participants.any (fun p => partSnapshotKey p.name p.contact == key)

/-- Core of the participants importer's per-row classification
(`processFile` map body): extracted `name`/`contact` are
`row.NAMES?.trim() || row.Name?.trim()` (resp. `CONTACT`/`Contact`),
`blank` is `Object.values(row).every(val => !val)`.  `none` models the
`return null` branch (row silently dropped). -/
def partClassifyCore (participants : List Participant)
    (name contact : Option String) (blank : Bool) : Option PartStatus :=
  if !truthy name && !truthy contact && blank then none
  else if !truthy name || !truthy contact then some .invalid
  else
    let key := jsToLower (name.getD "") ++ "_" ++ contact.getD ""
    if partMapHas participants key then some .alreadyExists
    else some .newP

/-- Per-row classification of the participants importer on a parsed row. -/
def partClassifyRow (participants : List Participant) (row : Row) :
    Option (Row × PartStatus) :=
  (partClassifyCore participants
      (jsOr ((row.get "NAMES").map jsTrim) ((row.get "Name").map jsTrim))
      (jsOr ((row.get "CONTACT").map jsTrim) ((row.get "Contact").map jsTrim))
      row.allBlank).map (fun s => (row, s))

/-- Participants importer's `processFile`: classify every parsed row and
drop the `null` entries (`.filter(Boolean)`). -/
def partProcessFile (participants : List Participant) (rows : List Row) :
    List (Row × PartStatus) :=
  rows.filterMap (partClassifyRow participants)

/-- Name field used when the participants importer creates a participant in
`handleImport` (`name: data.NAMES || data.Name` — raw, untrimmed). -/
def partCreatedName (row : Row) : Option String :=
  jsOr (row.get "NAMES") (row.get "Name")

/-- Contact field used at creation (`contact: data.CONTACT || data.Contact`). -/
def partCreatedContact (row : Row) : Option String :=
  jsOr (row.get "CONTACT") (row.get "Contact")

/-- Classification-time name field of the participants importer
(`row.NAMES?.trim() || row.Name?.trim()`). -/
def partRowName (r : Row) : Option String :=
  jsOr ((r.get "NAMES").map jsTrim) ((r.get "Name").map jsTrim)

/-- Classification-time contact field
(`row.CONTACT?.trim() || row.Contact?.trim()`). -/
def partRowContact (r : Row) : Option String :=
  jsOr ((r.get "CONTACT").map jsTrim) ((r.get "Contact").map jsTrim)

/-- A row's raw `NAMES`/`CONTACT` cells agree in truthiness with their
trimmed forms (no whitespace-only cell), so the creation-time `||`
fallbacks pick the same column as the classification-time ones. -/
def Row.wsConsistent (r : Row) : Prop :=
  truthy (r.get "NAMES") = truthy ((r.get "NAMES").map jsTrim) ∧
  truthy (r.get "CONTACT") = truthy ((r.get "CONTACT").map jsTrim)

/-! ## Volunteer importer (`ImportVolunteersModal`, src/unnamed/part_005) -/

/-- `VOLUNTEER_ROLES_LIST`. -/
def VOLUNTEER_ROLES_LIST : List String :=
  ["Event Staff", "Mentor", "Logistics", "Administrative", "Fundraising"]

/-- The `ImportStatus` union of `ImportVolunteersModal`. -/
inductive VolStatus where
  | newP       -- 'New Participant'
  | existingP  -- 'Existing Participant'
  | alreadyVol -- 'Already a Volunteer'
  | invalid    -- 'Invalid Data'
deriving Repr, DecidableEq

/-- Snapshot-side composite key of the volunteer importer:
`` `${p.name.toLowerCase()}_${p.contact.toLowerCase()}` `` — note: the
snapshot side is lowercased but **not** trimmed, and the contact **is**
lowercased (unlike the participants importer). -/
def volSnapshotKey (name contact : String) : String :=
  jsToLower name ++ "_" ++ jsToLower contact

/-- `participantMap.get(key)` for
`new Map(participants.map(p => [volSnapshotKey, p]))`: for duplicate keys a
JS `Map` keeps the **last** binding, so lookup scans the reversed list. -/
def volMapGet (participants : List Participant) (key : String) : Option Participant :=
  participants.reverse.find? (fun p => volSnapshotKey p.name p.contact == key)

/-- Core of the volunteer importer's per-row classification (`processFile`
map body): extracted `name`/`contact`/`role` are the `?.trim()`ed cells. -/
def volClassifyCore (participants : List Participant) (volunteerIds : List String)
    (name contact role : Option String) : VolStatus :=
  if !truthy name || !truthy contact || !truthy role then .invalid
  else if !VOLUNTEER_ROLES_LIST.contains (role.getD "") then .invalid
  else
    let key := jsToLower (name.getD "") ++ "_" ++ jsToLower (contact.getD "")
    match volMapGet participants key with
    | some p => if volunteerIds.contains p.id then .alreadyVol else .existingP
    | none => .newP

/-- Volunteer importer's `processFile` validation map (no row dropped). -/
def volProcessFile (participants : List Participant) (volunteerIds : List String)
    (rows : List Row) : List (Row × VolStatus) :=
  rows.map (fun r =>
    (r, volClassifyCore participants volunteerIds
          ((r.get "Name").map jsTrim) ((r.get "Contact").map jsTrim)
          ((r.get "Role").map jsTrim)))

/-- The `stats` record of the volunteer importer's `handleImport`
(`{ new: 0, existing: 0, skipped: 0, failed: 0 }`). -/
structure VolStats where
  new : Nat
  existing : Nat
  skipped : Nat
  failed : Nat
deriving Repr, DecidableEq

/-- Persistence environment of the volunteer importer.  `validDate s`
models `!isNaN(new Date(s).getTime())`; `addVolunteer`'s return value is
ignored by the source, so only throwing matters. -/
structure VolEnv where
  addParticipant : Row → CallResult (Option Participant)
  addVolunteer : String → CallResult Unit
  validDate : String → Bool

/-- `row.data.StartDate ? new Date(row.data.StartDate) : new Date()`
followed by the `isNaN` throw-check: an absent or falsy `StartDate` falls
back to `new Date()` (always valid). -/
def volStartDateOk (env : VolEnv) (row : Row) : Bool :=
  match row.get "StartDate" with
  | some s => if s.isEmpty then true else env.validDate s
  | none => true

/-- One iteration of the volunteer importer's `handleImport` loop.  The
body is wrapped in `try`/`catch` (a throw increments `failed` and the loop
continues), and the `Existing` branch re-reads the key from the **raw**
`row.data.Name` / `row.data.Contact` (no trim; a missing field makes
`.toLowerCase()` throw a TypeError, caught as a failure) and looks it up in
`participantMap`, built once from the original snapshot before the loop. -/
def volRowStep (env : VolEnv) (participants : List Participant)
    (stats : VolStats) (pr : Row × VolStatus) : VolStats :=
  let (row, st) := pr
  match st with
  | .invalid => { stats with skipped := stats.skipped + 1 }
  | .alreadyVol => { stats with skipped := stats.skipped + 1 }
  | .newP =>
    if !volStartDateOk env row then { stats with failed := stats.failed + 1 }
    else
      match env.addParticipant row with
      | .thrown => { stats with failed := stats.failed + 1 }
      | .ok none => { stats with failed := stats.failed + 1 }
      | .ok (some p) =>
        match env.addVolunteer p.id with
        | .thrown => { stats with failed := stats.failed + 1 }
        | .ok _ => { stats with new := stats.new + 1 }
  | .existingP =>
    if !volStartDateOk env row then { stats with failed := stats.failed + 1 }
    else
      match row.get "Name", row.get "Contact" with
      | some n, some c =>
        match volMapGet participants (jsToLower n ++ "_" ++ jsToLower c) with
        | some p =>
          match env.addVolunteer p.id with
          | .thrown => { stats with failed := stats.failed + 1 }
          | .ok _ => { stats with existing := stats.existing + 1 }
        | none => { stats with failed := stats.failed + 1 }
      | _, _ => { stats with failed := stats.failed + 1 }

/-- Volunteer importer's `handleImport` over a preview sequence. -/
def volHandleImport (env : VolEnv) (participants : List Participant)
    (preview : List (Row × VolStatus)) : VolStats :=
  preview.foldl (volRowStep env participants) ⟨0, 0, 0, 0⟩

/-- Sum of the volunteer-import counters. -/
def VolStats.total (s : VolStats) : Nat :=
  s.new + s.existing + s.skipped + s.failed

/-! ## Export builder (`ExportParticipantsModal.tsx`) -/

/-- A JS value held in a participant field, as discriminated by the
formatting chain in `handleExport` (`instanceof Date`, `typeof value ===
'boolean'`, `undefined`/`null`, everything else).  Dates are abstract
timestamps rendered by a locale function. -/
inductive JsValue where
  | vStr : String → JsValue
  | vNum : Int → JsValue
  | vBool : Bool → JsValue
  | vDate : Nat → JsValue
  | vNull : JsValue
  | vUndef : JsValue
deriving Repr, DecidableEq

/-- The cell-formatting chain of `handleExport` (lines 77–83):
`value instanceof Date` → `value.toLocaleDateString()`; boolean →
`'Yes'`/`'No'`; `undefined`/`null` → `''`; otherwise unchanged.
`locale` models the environment-dependent `toLocaleDateString`. -/
def formatCell (locale : Nat → String) : JsValue → JsValue
  | .vDate d => .vStr (locale d)
  | .vBool b => .vStr (if b then "Yes" else "No")
  | .vUndef => .vStr ""
  | .vNull => .vStr ""
  | .vStr s => .vStr s
  | .vNum n => .vNum n

/-- `ALL_COLUMNS` of `ExportParticipantsModal.tsx`: field key ↦ label, in
declaration order. -/
def ALL_COLUMNS : List (String × String) :=
  [("membershipId", "Membership ID"),
   ("name", "Name"),
   ("contact", "Contact"),
   ("institution", "Institution"),
   ("membershipStatus", "Membership Status"),
   ("engagementScore", "Engagement Score"),
   ("isContestant", "Is Contestant"),
   ("ghanaCardNumber", "Ghana Card"),
   ("gender", "Gender"),
   ("region", "Region"),
   ("createdAt", "Date Joined"),
   ("certificateIssued", "Certificate Issued"),
   ("notes", "Notes"),
   ("lastMembershipCardGeneratedAt", "Last Card Generated")]

/-- `Object.keys(ALL_COLUMNS).filter(key => selectedColumns.has(key))`:
selection ordered by declaration order, not selection order. -/
def orderedColumns (selected : List String) : List (String × String) :=
  ALL_COLUMNS.filter (fun kv => selected.contains kv.1)

/-- One exported row (lines 70–88): the entity (field key ↦ `JsValue`)
projected, in column order, onto `(label, formatted value)` cells. -/
def buildExportRow (locale : Nat → String) (entity : String → JsValue)
    (cols : List (String × String)) : List (String × JsValue) :=
  cols.map (fun kv => (kv.2, formatCell locale (entity kv.1)))

/-- `handleExport`: the zero-entity and zero-selected-column guards return
early (no file written, modelled by `none`); otherwise the exported table. -/
def handleExport (locale : Nat → String) (entities : List (String → JsValue))
    (selected : List String) : Option (List (List (String × JsValue))) :=
  if entities.length = 0 then none
  else if selected.length = 0 then none
  else some (entities.map (fun e => buildExportRow locale e (orderedColumns selected)))

/-- Modelled from the spec: the composite key the spec asserts all three
importers share — `lowercase(trim(name)) + "_" + trim(contact)`. -/
def specCompositeKey (name contact : String) : String :=
  jsToLower (jsTrim name) ++ "_" ++ jsTrim contact

/-! ## Basic lemmas -/

theorem truthy_some_iff {s : String} : truthy (some s) = true ↔ s ≠ "" := by
  simp only [truthy, Bool.not_eq_true', Bool.eq_false_iff, ne_eq]
  exact not_congr (String.isEmpty_iff s)

theorem truthy_jsOr (a b : Option String) :
    truthy (jsOr a b) = (truthy a || truthy b) := by
  unfold jsOr
  split <;> simp_all

theorem truthy_get_of_allBlank {r : Row} (h : r.allBlank = true) (k : String) :
    truthy (r.get k) = false := by
  unfold Row.get
  cases hf : r.cells.find? (fun c => c.1 == k) with
  | none => rfl
  | some c =>
    have hc : c ∈ r.cells := List.mem_of_find?_eq_some hf
    have h2 : c.2.isEmpty = true := by
      simpa using (List.all_eq_true.mp h) c hc
    simp [truthy, h2]

theorem truthy_trimmed_get_of_allBlank {r : Row} (h : r.allBlank = true) (k : String) :
    truthy ((r.get k).map jsTrim) = false := by
  cases hf : r.get k with
  | none => rfl
  | some s =>
    have hs : s = "" := by
      have := truthy_get_of_allBlank h k
      rw [hf] at this
      simpa [truthy, String.isEmpty_iff] using this
    subst hs
    rfl

theorem length_filterMap_lt_of_none {α β : Type} {f : α → Option β} {l : List α}
    {a : α} (ha : a ∈ l) (hfa : f a = none) :
    (l.filterMap f).length < l.length := by
  induction l with
  | nil => cases ha
  | cons x t ih =>
    rcases List.mem_cons.mp ha with rfl | hmem
    · simp only [List.filterMap_cons, hfa]
      exact Nat.lt_succ_of_le (List.length_filterMap_le f t)
    · cases hfx : f x
      · simp only [List.filterMap_cons, hfx, List.length_cons]
        exact Nat.lt_succ_of_lt (ih hmem)
      · simp only [List.filterMap_cons, hfx, List.length_cons]
        exact Nat.succ_lt_succ (ih hmem)

/-! ## Claims -/

/-- **C9**: for every participant entity and every selected column, the
export builder formats the cell as: `Date` → locale date string, boolean →
`"Yes"`/`"No"`, `null`/`undefined` → empty string, everything else passes
through unchanged. -/
theorem c9_export_cell_formatting (locale : Nat → String) (entity : String → JsValue)
    (cols : List (String × String)) (k lbl : String) (hk : (k, lbl) ∈ cols) :
    (lbl, formatCell locale (entity k)) ∈ buildExportRow locale entity cols ∧
    (∀ d, formatCell locale (.vDate d) = .vStr (locale d)) ∧
    formatCell locale (.vBool true) = .vStr "Yes" ∧
    formatCell locale (.vBool false) = .vStr "No" ∧
    formatCell locale .vNull = .vStr "" ∧
    formatCell locale .vUndef = .vStr "" ∧
    (∀ s, formatCell locale (.vStr s) = .vStr s) ∧
    (∀ n, formatCell locale (.vNum n) = .vNum n) := by
  refine ⟨?_, fun d => rfl, rfl, rfl, rfl, rfl, fun s => rfl, fun n => rfl⟩
  simpa [buildExportRow] using
    List.mem_map_of_mem (fun kv : String × String => (kv.2, formatCell locale (entity kv.1))) hk

/-- Witness for C9: a `membershipStatus: true` cell of the full column list
exports as `"Yes"` under the `Membership Status` label. -/
theorem c9_export_cell_formatting_witness :
    ("Membership Status", JsValue.vStr "Yes") ∈
      buildExportRow (fun _ => "1/1/2024") (fun _ => JsValue.vBool true) ALL_COLUMNS :=
  (c9_export_cell_formatting (fun _ => "1/1/2024") (fun _ => JsValue.vBool true)
    ALL_COLUMNS "membershipStatus" "Membership Status" (by decide)).1

/-- **C2** is false on the code: the club importer's classification never
consults institutions.  A row equal (raw) to an existing participant whose
institution `"InstA"` differs from the target club's institution `"InstB"`
is classified `Existing Participant`, not `New Participant`. -/
theorem c2_counterexample :
    (Participant.mk "1" "Jane" "X" "InstA").institution ≠ (Club.mk "c1" "InstB").institution ∧
    clubProcessFile (Club.mk "c1" "InstB") [Participant.mk "1" "Jane" "X" "InstA"] []
        [Row.mk [("Name", "Jane"), ("Contact", "X")]] =
      [(Row.mk [("Name", "Jane"), ("Contact", "X")], ClubStatus.existingP)] := by
  decide

/-- **C2** (amended): the club importer ignores institutions entirely —
classification is invariant under any reassignment of the participants'
institution fields, and a row whose raw name and contact equal those of a
snapshot participant is never classified `New Participant`, whatever the
institutions involved. -/
theorem c2_institution_ignored (ps : List Participant) (memberIds : List String)
    (name contact : Option String) :
    (∀ f : Participant → String,
      clubClassifyCore (ps.map fun p => { p with institution := f p }) memberIds name contact =
        clubClassifyCore ps memberIds name contact) ∧
    (∀ p ∈ ps, some p.name = name → some p.contact = contact →
      clubClassifyCore ps memberIds name contact ≠ .newP) := by
  constructor
  · intro f
    unfold clubClassifyCore
    rw [List.find?_map]
    have hpred : ((fun p : Participant => some p.name == name && some p.contact == contact) ∘
        (fun p => { p with institution := f p })) =
        (fun p : Participant => some p.name == name && some p.contact == contact) := rfl
    rw [hpred]
    cases ps.find? (fun p => some p.name == name && some p.contact == contact) <;> rfl
  · intro p hp hn hc
    unfold clubClassifyCore
    split
    · simp
    · cases hfind : ps.find? (fun p => some p.name == name && some p.contact == contact) with
      | none =>
        exact absurd (by simp [← hn, ← hc]) (List.find?_eq_none.mp hfind p hp)
      | some q =>
        split
        · split <;> simp
        · simp_all

/-- Witness for C2 (amended): concrete instantiation at one cross-institution
participant. -/
theorem c2_institution_ignored_witness :
    clubClassifyCore [Participant.mk "1" "Jane" "X" "InstA"] [] (some "Jane") (some "X") ≠
      .newP :=
  (c2_institution_ignored [Participant.mk "1" "Jane" "X" "InstA"] [] (some "Jane")
    (some "X")).2 (Participant.mk "1" "Jane" "X" "InstA") (by decide) rfl rfl

/-- A fully blank row is silently dropped by the participants importer. -/
theorem partClassifyRow_of_allBlank {ps : List Participant} {r : Row}
    (h : r.allBlank = true) : partClassifyRow ps r = none := by
  unfold partClassifyRow partClassifyCore
  simp [truthy_jsOr, truthy_trimmed_get_of_allBlank h, h]

/-- **C7** is false on the code: the club importer does not drop a fully
blank row — it keeps it in the preview as `Invalid Data`, so the preview
length equals the input length. -/
theorem c7_counterexample :
    (Row.mk [("Name", ""), ("Contact", "")]).allBlank = true ∧
    clubProcessFile (Club.mk "c1" "I") [] [] [Row.mk [("Name", ""), ("Contact", "")]] =
      [(Row.mk [("Name", ""), ("Contact", "")], ClubStatus.invalid)] := by
  decide

/-- **C7** (amended): only the participants importer drops fully blank rows
(making its preview strictly shorter when one exists); the club and
volunteer importers preserve the row count, classifying fully blank rows as
`Invalid Data`. -/
theorem c7_blank_row_handling (club : Club) (ps : List Participant)
    (ms : List ClubMembership) (vids : List String) (rows : List Row) :
    ((∃ r ∈ rows, r.allBlank = true) → (partProcessFile ps rows).length < rows.length) ∧
    (clubProcessFile club ps ms rows).length = rows.length ∧
    (volProcessFile ps vids rows).length = rows.length ∧
    (∀ r : Row, r.allBlank = true →
      clubClassifyCore ps (clubMemberIds ms club.id) (r.get "Name") (r.get "Contact") =
        .invalid) ∧
    (∀ r : Row, r.allBlank = true →
      volClassifyCore ps vids ((r.get "Name").map jsTrim) ((r.get "Contact").map jsTrim)
        ((r.get "Role").map jsTrim) = .invalid) := by
  refine ⟨?_, by simp [clubProcessFile], by simp [volProcessFile], ?_, ?_⟩
  · rintro ⟨r, hr, hb⟩
    exact length_filterMap_lt_of_none hr (partClassifyRow_of_allBlank hb)
  · intro r hb
    unfold clubClassifyCore
    simp [truthy_get_of_allBlank hb]
  · intro r hb
    unfold volClassifyCore
    simp [truthy_trimmed_get_of_allBlank hb]

/-- Witness for C7 (amended): one blank row, dropped by the participants
importer. -/
theorem c7_blank_row_handling_witness :
    (partProcessFile [] [Row.mk [("NAMES", "")]]).length < 1 :=
  (c7_blank_row_handling (Club.mk "c" "I") [] [] [] [Row.mk [("NAMES", "")]]).1
    ⟨Row.mk [("NAMES", "")], by decide, by decide⟩

/-- **C8** is false on the code: the club importer's required-field check
tests raw truthiness without trimming, so a whitespace-only name passes and
the row is classified `New Participant`, not `Invalid Data`. -/
theorem c8_counterexample :
    jsTrim " " = "" ∧
    clubProcessFile (Club.mk "c1" "I") [] [] [Row.mk [("Name", " "), ("Contact", "x")]] =
      [(Row.mk [("Name", " "), ("Contact", "x")], ClubStatus.newP)] := by
  decide

/-- **C8** (amended): required-field rule per importer.  Club importer:
`Invalid Data` exactly when the raw name or contact is missing or the empty
string (whitespace-only values pass the check).  Participants importer: a
falsy (extracted, trimmed) name or contact yields `Invalid Data`, except
that the row is dropped when both are falsy and every cell is blank.
Volunteer importer: `Invalid Data` exactly when the trimmed name, contact,
or role is missing/empty, or the role is not a recognized volunteer role. -/
theorem c8_required_field_rule (ps : List Participant) (ids vids : List String)
    (name contact role : Option String) (blank : Bool) :
    (clubClassifyCore ps ids name contact = .invalid ↔
      (!truthy name || !truthy contact) = true) ∧
    ((!truthy name || !truthy contact) = true →
      partClassifyCore ps name contact blank =
        if !truthy name && !truthy contact && blank then none else some .invalid) ∧
    (volClassifyCore ps vids name contact role = .invalid ↔
      (!truthy name || !truthy contact || !truthy role ||
        !VOLUNTEER_ROLES_LIST.contains (role.getD "")) = true) := by
  refine ⟨?_, ?_, ?_⟩
  · cases htr : (!truthy name || !truthy contact) with
    | true => simp [clubClassifyCore, htr]
    | false =>
      have hni : clubClassifyCore ps ids name contact ≠ .invalid := by
        unfold clubClassifyCore
        rw [htr]
        simp only [Bool.false_eq_true, if_false]
        cases ps.find? (fun p => some p.name == name && some p.contact == contact) with
        | none => simp
        | some q =>
          split
          · split <;> simp
          · simp_all
      simp [hni, htr]
  · intro h
    cases hcond : (!truthy name && !truthy contact && blank) <;>
      simp [partClassifyCore, hcond, h]
  · cases h1 : (!truthy name || !truthy contact || !truthy role) with
    | true => simp [volClassifyCore, h1]
    | false =>
      cases h2 : (!VOLUNTEER_ROLES_LIST.contains (role.getD "")) with
      | true =>
        unfold volClassifyCore
        rw [h1, h2]
        simp
      | false =>
        have hni : volClassifyCore ps vids name contact role ≠ .invalid := by
          unfold volClassifyCore
          rw [h1, h2]
          simp only [Bool.false_eq_true, if_false]
          cases volMapGet ps (jsToLower (name.getD "") ++ "_" ++ jsToLower (contact.getD "")) with
          | none => simp
          | some q =>
            split
            · split <;> simp
            · simp_all
        simp [hni, h1, h2]

/-- Witness for C8 (amended): a trim-empty name in the participants importer
is `Invalid Data` when the row is not fully blank. -/
theorem c8_required_field_rule_witness :
    partClassifyCore [] (some "") (some "x") false = some PartStatus.invalid :=
  (c8_required_field_rule [] [] [] (some "") (some "x") none false).2.1 (by decide)

/-- **C1** is false on the code: the three importers do not share the
composite key `lowercase(trim(name)) + "_" + trim(contact)`.  The row
`"jane"/"X"` and the participant `"Jane"/"X"` have equal spec keys, yet the
club importer (which compares raw strings) classifies the row
`New Participant` instead of matching it. -/
theorem c1_counterexample :
    specCompositeKey "jane" "X" = specCompositeKey "Jane" "X" ∧
    clubProcessFile (Club.mk "c1" "I") [Participant.mk "1" "Jane" "X" "UG"] []
        [Row.mk [("Name", "jane"), ("Contact", "X")]] =
      [(Row.mk [("Name", "jane"), ("Contact", "X")], ClubStatus.newP)] := by
  decide

/-- **C1** (amended): each importer's actual matching rule, on a row whose
extracted name/contact/role fields are non-empty.  The participants
importer matches by comparing the snapshot key
`lowercase(trim(p.name)) + "_" + trim(p.contact)` with the row key
`lowercase(name) + "_" + contact` (the spec's rule, as the extracted fields
are already trimmed); the club importer matches by exact raw equality of
name and contact (no trimming, no case folding); the volunteer importer
matches by the fully lowercased key `lowercase(name) + "_" +
lowercase(contact)` against snapshot keys that are lowercased but not
trimmed.  The three rules are distinct. -/
theorem c1_matching_rules (ps : List Participant) (memberIds volunteerIds : List String)
    (name contact role : String) (blank : Bool)
    (hn : name ≠ "") (hc : contact ≠ "") (hr : role ∈ VOLUNTEER_ROLES_LIST) :
    (partClassifyCore ps (some name) (some contact) blank = some .alreadyExists ↔
      ∃ p ∈ ps, partSnapshotKey p.name p.contact = jsToLower name ++ "_" ++ contact) ∧
    (clubClassifyCore ps memberIds (some name) (some contact) ≠ .newP ↔
      ∃ p ∈ ps, p.name = name ∧ p.contact = contact) ∧
    (volClassifyCore ps volunteerIds (some name) (some contact) (some role) ≠ .newP ↔
      (volMapGet ps (jsToLower name ++ "_" ++ jsToLower contact)).isSome = true) := by
  have hnt : truthy (some name) = true := truthy_some_iff.mpr hn
  have hct : truthy (some contact) = true := truthy_some_iff.mpr hc
  have hrne : role ≠ "" := by
    rintro rfl
    revert hr
    decide
  have hrt : truthy (some role) = true := truthy_some_iff.mpr hrne
  refine ⟨?_, ?_, ?_⟩
  · unfold partClassifyCore
    rw [hnt, hct]
    simp only [Bool.not_true, Bool.false_and, Bool.false_or, Bool.or_self,
      Bool.false_eq_true, if_false, Option.getD_some]
    by_cases hkey : partMapHas ps (jsToLower name ++ "_" ++ contact) = true
    · rw [if_pos hkey]
      simp only [true_iff]
      simpa [partMapHas, List.any_eq_true, beq_iff_eq] using hkey
    · rw [if_neg hkey]
      constructor
      · intro h
        exact absurd h (by simp)
      · intro hex
        exact absurd (by simpa [partMapHas, List.any_eq_true, beq_iff_eq] using hex) hkey
  · unfold clubClassifyCore
    rw [hnt, hct]
    simp only [Bool.not_true, Bool.or_self, Bool.false_eq_true, if_false]
    cases hfind : ps.find? (fun p => some p.name == some name && some p.contact == some contact) with
    | none =>
      rw [List.find?_eq_none] at hfind
      simp only [ne_eq, not_true_eq_false, false_iff, not_exists]
      rintro p ⟨hp, h1, h2⟩
      exact absurd (by simp [h1, h2]) (hfind p hp)
    | some q =>
      have hq := List.find?_some hfind
      have hqmem := List.mem_of_find?_eq_some hfind
      simp only [Bool.and_eq_true, beq_iff_eq, Option.some.injEq] at hq
      constructor
      · intro _
        exact ⟨q, hqmem, hq.1, hq.2⟩
      · intro _
        split
        · split <;> simp
        · simp_all
  · unfold volClassifyCore
    rw [hnt, hct, hrt]
    have hcont : VOLUNTEER_ROLES_LIST.contains ((some role).getD "") = true := by
      simpa using hr
    rw [hcont]
    simp only [Bool.not_true, Bool.or_self, Bool.false_eq_true, if_false,
      Option.getD_some]
    cases hm : volMapGet ps (jsToLower name ++ "_" ++ jsToLower contact) with
    | none => simp
    | some p =>
      refine ⟨fun _ => rfl, fun _ => ?_⟩
      show (if volunteerIds.contains p.id = true then VolStatus.alreadyVol
          else VolStatus.existingP) ≠ VolStatus.newP
      split <;> simp

/-- Witness for C1 (amended): the participants importer matches
`"jane"/"X"` against the snapshot participant `"Jane"/"X"`. -/
theorem c1_matching_rules_witness :
    partClassifyCore [Participant.mk "1" "Jane" "X" "UG"] (some "jane") (some "X") false =
      some PartStatus.alreadyExists :=
  (c1_matching_rules [Participant.mk "1" "Jane" "X" "UG"] [] [] "jane" "X" "Mentor" false
    (by decide) (by decide) (by decide)).1.mpr
    ⟨Participant.mk "1" "Jane" "X" "UG", by decide, by decide⟩

/-- Every volunteer-import loop iteration accounts for its row in exactly
one counter. -/
theorem volRowStep_total (env : VolEnv) (ps : List Participant) (stats : VolStats)
    (pr : Row × VolStatus) :
    (volRowStep env ps stats pr).total = stats.total + 1 := by
  obtain ⟨row, st⟩ := pr
  unfold VolStats.total volRowStep
  cases st with
  | invalid => dsimp only; omega
  | alreadyVol => dsimp only; omega
  | newP =>
    dsimp only
    split
    · dsimp only; omega
    · cases env.addParticipant row with
      | thrown => dsimp only; omega
      | ok o =>
        cases o with
        | none => dsimp only; omega
        | some p =>
          dsimp only
          cases env.addVolunteer p.id <;> · dsimp only; omega
  | existingP =>
    dsimp only
    split
    · dsimp only; omega
    · cases row.get "Name" with
      | none => dsimp only; omega
      | some n =>
        cases row.get "Contact" with
        | none => dsimp only; omega
        | some c =>
          dsimp only
          cases volMapGet ps (jsToLower n ++ "_" ++ jsToLower c) with
          | none => dsimp only; omega
          | some p =>
            dsimp only
            cases env.addVolunteer p.id <;> · dsimp only; omega

/-- Folding the volunteer-import step adds the row count to the total. -/
theorem volFoldl_total (env : VolEnv) (ps : List Participant)
    (preview : List (Row × VolStatus)) :
    ∀ stats : VolStats,
      (preview.foldl (volRowStep env ps) stats).total = stats.total + preview.length := by
  induction preview with
  | nil => intro stats; simp
  | cons pr rest ih =>
    intro stats
    rw [List.foldl_cons, ih, volRowStep_total]
    simp only [List.length_cons]
    omega

/-- When no persistence call throws, the club-import loop completes with a
summary accounting for every row. -/
theorem clubImportLoop_ok_of_nothrow (env : ClubEnv)
    (hp : ∀ r, env.addParticipant r ≠ .thrown)
    (hm : ∀ i, env.addClubMembership i ≠ .thrown)
    (preview : List (Row × ClubStatus)) :
    ∀ (stats : ClubStats) (temp : List Participant),
      ∃ s : ClubStats, clubImportLoop env preview stats temp = .ok s ∧
        s.total = stats.total + preview.length := by
  induction preview with
  | nil =>
    intro stats temp
    exact ⟨stats, rfl, by simp⟩
  | cons pr rest ih =>
    intro stats temp
    obtain ⟨row, st⟩ := pr
    cases st with
    | invalid =>
      obtain ⟨s, hs, ht⟩ := ih ⟨stats.new, stats.existing, stats.skipped + 1⟩ temp
      refine ⟨s, by simpa [clubImportLoop] using hs, ?_⟩
      simp only [ClubStats.total, List.length_cons] at ht ⊢
      omega
    | alreadyMember =>
      obtain ⟨s, hs, ht⟩ := ih ⟨stats.new, stats.existing, stats.skipped + 1⟩ temp
      refine ⟨s, by simpa [clubImportLoop] using hs, ?_⟩
      simp only [ClubStats.total, List.length_cons] at ht ⊢
      omega
    | newP =>
      cases hap : env.addParticipant row with
      | thrown => exact absurd hap (hp row)
      | ok o =>
        cases o with
        | none =>
          obtain ⟨s, hs, ht⟩ := ih ⟨stats.new, stats.existing, stats.skipped + 1⟩ temp
          refine ⟨s, by simp [clubImportLoop, hap, hs], ?_⟩
          simp only [ClubStats.total, List.length_cons] at ht ⊢
          omega
        | some p =>
          obtain ⟨s, hs, ht⟩ := ih ⟨stats.new + 1, stats.existing, stats.skipped⟩ (temp ++ [p])
          refine ⟨s, by simp [clubImportLoop, hap, hs], ?_⟩
          simp only [ClubStats.total, List.length_cons] at ht ⊢
          omega
    | existingP =>
      cases hfind : temp.find? (fun p =>
          some p.name == row.get "Name" && some p.contact == row.get "Contact") with
      | none =>
        obtain ⟨s, hs, ht⟩ := ih ⟨stats.new, stats.existing, stats.skipped + 1⟩ temp
        refine ⟨s, by simp [clubImportLoop, hfind, hs], ?_⟩
        simp only [ClubStats.total, List.length_cons] at ht ⊢
        omega
      | some p =>
        cases hcm : env.addClubMembership p.id with
        | thrown => exact absurd hcm (hm p.id)
        | ok b =>
          cases b with
          | true =>
            obtain ⟨s, hs, ht⟩ := ih ⟨stats.new, stats.existing + 1, stats.skipped⟩ temp
            refine ⟨s, by simp [clubImportLoop, hfind, hcm, hs], ?_⟩
            simp only [ClubStats.total, List.length_cons] at ht ⊢
            omega
          | false =>
            obtain ⟨s, hs, ht⟩ := ih ⟨stats.new, stats.existing, stats.skipped + 1⟩ temp
            refine ⟨s, by simp [clubImportLoop, hfind, hcm, hs], ?_⟩
            simp only [ClubStats.total, List.length_cons] at ht ⊢
            omega

/-- **C4** is false on the code: the club importer's `handleImport` loop has
no `try`/`catch`, so a thrown `addParticipant` rejects the whole batch —
the subsequent row is never processed and no summary is produced — while
the identical preview completes when the call returns. -/
theorem c4_counterexample :
    clubHandleImport ⟨fun _ => .thrown, fun _ => .ok true⟩ []
        [(Row.mk [("Name", "A"), ("Contact", "B")], ClubStatus.newP),
         (Row.mk [("Name", "C"), ("Contact", "D")], ClubStatus.invalid)] = .thrown ∧
    clubHandleImport
        ⟨fun _ => .ok (some (Participant.mk "1" "A" "B" "I")), fun _ => .ok true⟩ []
        [(Row.mk [("Name", "A"), ("Contact", "B")], ClubStatus.newP),
         (Row.mk [("Name", "C"), ("Contact", "D")], ClubStatus.invalid)] =
      .ok ⟨1, 0, 1⟩ := by
  decide

/-- **C4** (amended): in the volunteer importer every per-row failure is
caught, so the run always continues through every subsequent row (the fold
over `pre ++ post` always continues with `post` from wherever `pre` left
the counters); in the club importer, only falsy returns are tolerated
per-row — the batch reaches a final summary whenever no persistence call
throws, but a thrown call aborts it. -/
theorem c4_failure_tolerance (envC : ClubEnv) (envV : VolEnv) (ps psV : List Participant)
    (preview : List (Row × ClubStatus)) (pre post : List (Row × VolStatus))
    (hp : ∀ r, envC.addParticipant r ≠ .thrown)
    (hm : ∀ i, envC.addClubMembership i ≠ .thrown) :
    (∃ s : ClubStats, clubHandleImport envC ps preview = .ok s) ∧
    volHandleImport envV psV (pre ++ post) =
      post.foldl (volRowStep envV psV) (volHandleImport envV psV pre) := by
  constructor
  · obtain ⟨s, hs, -⟩ := clubImportLoop_ok_of_nothrow envC hp hm preview ⟨0, 0, 0⟩ ps
    exact ⟨s, hs⟩
  · simp [volHandleImport, List.foldl_append]

/-- Witness for C4 (amended): a batch whose only persistence call returns a
falsy value still completes with a summary. -/
theorem c4_failure_tolerance_witness :
    ∃ s : ClubStats,
      clubHandleImport ⟨fun _ => .ok none, fun _ => .ok false⟩ []
        [(Row.mk [("Name", "A"), ("Contact", "B")], ClubStatus.newP)] = .ok s :=
  (c4_failure_tolerance ⟨fun _ => .ok none, fun _ => .ok false⟩
    ⟨fun _ => .ok none, fun _ => .ok (), fun _ => true⟩ [] []
    [(Row.mk [("Name", "A"), ("Contact", "B")], ClubStatus.newP)] [] []
    (fun _ h => CallResult.noConfusion h) (fun _ h => CallResult.noConfusion h)).1

/-- **C5** is false on the code: in the club importer a `New Participant`
row whose creation call returns a falsy value increments `skipped` — the
club stats record has no `failed` counter at all. -/
theorem c5_counterexample :
    clubHandleImport ⟨fun _ => .ok none, fun _ => .ok true⟩ []
        [(Row.mk [("Name", "A"), ("Contact", "B")], ClubStatus.newP)] =
      .ok ⟨0, 0, 1⟩ := by
  decide

/-- **C5** (amended): failure accounting for `New` rows.  Volunteer
importer: an invalid start date, a thrown or falsy creation, or a thrown
`addVolunteer` increments `failed`, and `new` is incremented exactly when
creation succeeds and `addVolunteer` returns.  Club importer: a falsy
creation increments `skipped` (its stats have no `failed` counter), and
`new` is incremented only on successful creation (which also extends the
shadow copy). -/
theorem c5_new_row_failure_accounting (envV : VolEnv) (envC : ClubEnv)
    (psV : List Participant) (stats : VolStats) (row : Row)
    (cstats : ClubStats) (rest : List (Row × ClubStatus)) (temp : List Participant) :
    (volStartDateOk envV row = false →
      volRowStep envV psV stats (row, .newP) = { stats with failed := stats.failed + 1 }) ∧
    (volStartDateOk envV row = true → envV.addParticipant row = .thrown →
      volRowStep envV psV stats (row, .newP) = { stats with failed := stats.failed + 1 }) ∧
    (volStartDateOk envV row = true → envV.addParticipant row = .ok none →
      volRowStep envV psV stats (row, .newP) = { stats with failed := stats.failed + 1 }) ∧
    (∀ p, volStartDateOk envV row = true → envV.addParticipant row = .ok (some p) →
      envV.addVolunteer p.id = .thrown →
      volRowStep envV psV stats (row, .newP) = { stats with failed := stats.failed + 1 }) ∧
    (∀ p, volStartDateOk envV row = true → envV.addParticipant row = .ok (some p) →
      envV.addVolunteer p.id = .ok () →
      volRowStep envV psV stats (row, .newP) = { stats with new := stats.new + 1 }) ∧
    (envC.addParticipant row = .ok none →
      clubImportLoop envC ((row, .newP) :: rest) cstats temp =
        clubImportLoop envC rest { cstats with skipped := cstats.skipped + 1 } temp) ∧
    (∀ p, envC.addParticipant row = .ok (some p) →
      clubImportLoop envC ((row, .newP) :: rest) cstats temp =
        clubImportLoop envC rest { cstats with new := cstats.new + 1 } (temp ++ [p])) := by
  refine ⟨?_, ?_, ?_, ?_, ?_, ?_, ?_⟩ <;> intros <;> simp [volRowStep, clubImportLoop, *]

/-- Witness for C5 (amended): a falsy volunteer-importer creation counts as
`failed`. -/
theorem c5_new_row_failure_accounting_witness :
    volRowStep ⟨fun _ => .ok none, fun _ => .ok (), fun _ => true⟩ [] ⟨0, 0, 0, 0⟩
        (Row.mk [("Name", "A"), ("Contact", "B")], VolStatus.newP) = ⟨0, 0, 0, 1⟩ :=
  (c5_new_row_failure_accounting ⟨fun _ => .ok none, fun _ => .ok (), fun _ => true⟩
    ⟨fun _ => .ok none, fun _ => .ok true⟩ [] ⟨0, 0, 0, 0⟩
    (Row.mk [("Name", "A"), ("Contact", "B")]) ⟨0, 0, 0⟩ [] []).2.2.1 rfl rfl

/-- **C3** is false on the code: in the club importer an `Existing
Participant` row whose participant is not found in the shadow copy
increments `skipped`, not `failed` — the club stats record has no `failed`
counter. -/
theorem c3_counterexample :
    clubHandleImport ⟨fun _ => .ok none, fun _ => .ok true⟩ []
        [(Row.mk [("Name", "A"), ("Contact", "B")], ClubStatus.existingP)] =
      .ok ⟨0, 0, 1⟩ := by
  decide

/-- **C3** (amended): resolution of `Existing` rows.  Club importer: the
row is looked up in the shadow copy (original snapshot plus participants
created by earlier `New` rows of the same run) by exact raw name+contact;
if found, only `addClubMembership` is invoked (`existing` on success); if
not found, `skipped` — not `failed` — is incremented.  Volunteer importer:
the row's lowercased key is looked up in the map built once from the
original snapshot (never extended by this run's creations); if found, only
`addVolunteer` is invoked (`existing` on return); if not found, `failed`
is incremented. -/
theorem c3_existing_row_resolution (envC : ClubEnv) (envV : VolEnv)
    (ps : List Participant) (stats : ClubStats) (vstats : VolStats)
    (temp : List Participant) (row row1 : Row) (rest : List (Row × ClubStatus)) :
    (∀ p, temp.find? (fun q =>
        some q.name == row.get "Name" && some q.contact == row.get "Contact") = some p →
      envC.addClubMembership p.id = .ok true →
      clubImportLoop envC ((row, .existingP) :: rest) stats temp =
        clubImportLoop envC rest { stats with existing := stats.existing + 1 } temp) ∧
    (temp.find? (fun q =>
        some q.name == row.get "Name" && some q.contact == row.get "Contact") = none →
      clubImportLoop envC ((row, .existingP) :: rest) stats temp =
        clubImportLoop envC rest { stats with skipped := stats.skipped + 1 } temp) ∧
    (∀ p, envC.addParticipant row1 = .ok (some p) →
      some p.name = row.get "Name" → some p.contact = row.get "Contact" →
      temp.find? (fun q =>
        some q.name == row.get "Name" && some q.contact == row.get "Contact") = none →
      envC.addClubMembership p.id = .ok true →
      clubImportLoop envC ((row1, .newP) :: (row, .existingP) :: rest) stats temp =
        clubImportLoop envC rest
          { stats with new := stats.new + 1, existing := stats.existing + 1 }
          (temp ++ [p])) ∧
    (∀ n c p, row.get "Name" = some n → row.get "Contact" = some c →
      volStartDateOk envV row = true →
      volMapGet ps (jsToLower n ++ "_" ++ jsToLower c) = some p →
      envV.addVolunteer p.id = .ok () →
      volRowStep envV ps vstats (row, .existingP) =
        { vstats with existing := vstats.existing + 1 }) ∧
    (∀ n c, row.get "Name" = some n → row.get "Contact" = some c →
      volStartDateOk envV row = true →
      volMapGet ps (jsToLower n ++ "_" ++ jsToLower c) = none →
      volRowStep envV ps vstats (row, .existingP) =
        { vstats with failed := vstats.failed + 1 }) := by
  refine ⟨?_, ?_, ?_, ?_, ?_⟩
  · intro p hfind hcm
    simp [clubImportLoop, hfind, hcm]
  · intro hfind
    simp [clubImportLoop, hfind]
  · intro p hap hn hc hfind hcm
    have hpred : (fun q : Participant =>
        some q.name == row.get "Name" && some q.contact == row.get "Contact") p = true := by
      rw [← hn, ← hc]
      simp
    have hfind2 : (temp ++ [p]).find? (fun q =>
        some q.name == row.get "Name" && some q.contact == row.get "Contact") = some p := by
      rw [List.find?_append, hfind]
      simp [hpred]
    simp [clubImportLoop, hap, hfind2, hcm]
  · intro n c p hn hc hsd hmg hv
    simp [volRowStep, hn, hc, hsd, hmg, hv]
  · intro n c hn hc hsd hmg
    simp [volRowStep, hn, hc, hsd, hmg]

/-- Witness for C3 (amended): an Existing row directly after a successful
New row with the same raw name and contact resolves against the shadow-copy
extension and attaches the membership. -/
theorem c3_existing_row_resolution_witness :
    clubImportLoop ⟨fun _ => .ok (some (Participant.mk "7" "A" "B" "I")), fun _ => .ok true⟩
        [(Row.mk [("Name", "A"), ("Contact", "B")], ClubStatus.newP),
         (Row.mk [("Name", "A"), ("Contact", "B")], ClubStatus.existingP)] ⟨0, 0, 0⟩ [] =
      .ok ⟨1, 1, 0⟩ :=
  (c3_existing_row_resolution
    ⟨fun _ => .ok (some (Participant.mk "7" "A" "B" "I")), fun _ => .ok true⟩
    ⟨fun _ => .ok none, fun _ => .ok (), fun _ => true⟩ [] ⟨0, 0, 0⟩ ⟨0, 0, 0, 0⟩ []
    (Row.mk [("Name", "A"), ("Contact", "B")]) (Row.mk [("Name", "A"), ("Contact", "B")])
    []).2.2.1 (Participant.mk "7" "A" "B" "I") rfl rfl rfl rfl rfl

/-- **C10**: every preview row is accounted for exactly once — in the club
importer (when no awaited call throws) `new + existing + skipped` equals
the preview length, and in the volunteer importer `new + existing +
skipped + failed` always equals the preview length. -/
theorem c10_row_accounting (envC : ClubEnv) (envV : VolEnv) (ps psV : List Participant)
    (preview : List (Row × ClubStatus)) (previewV : List (Row × VolStatus))
    (hp : ∀ r, envC.addParticipant r ≠ .thrown)
    (hm : ∀ i, envC.addClubMembership i ≠ .thrown) :
    (∃ s : ClubStats, clubHandleImport envC ps preview = .ok s ∧
      s.new + s.existing + s.skipped = preview.length) ∧
    (volHandleImport envV psV previewV).new + (volHandleImport envV psV previewV).existing +
        (volHandleImport envV psV previewV).skipped +
        (volHandleImport envV psV previewV).failed = previewV.length := by
  constructor
  · obtain ⟨s, hs, ht⟩ := clubImportLoop_ok_of_nothrow envC hp hm preview ⟨0, 0, 0⟩ ps
    refine ⟨s, hs, ?_⟩
    simpa [ClubStats.total] using ht
  · simpa [VolStats.total, volHandleImport] using volFoldl_total envV psV previewV ⟨0, 0, 0, 0⟩

/-- Witness for C10: a two-row club preview is fully accounted for. -/
theorem c10_row_accounting_witness :
    ∃ s : ClubStats,
      clubHandleImport ⟨fun _ => .ok none, fun _ => .ok true⟩ []
          [(Row.mk [], ClubStatus.invalid), (Row.mk [], ClubStatus.alreadyMember)] = .ok s ∧
      s.new + s.existing + s.skipped = 2 :=
  (c10_row_accounting ⟨fun _ => .ok none, fun _ => .ok true⟩
    ⟨fun _ => .ok none, fun _ => .ok (), fun _ => true⟩ [] []
    [(Row.mk [], ClubStatus.invalid), (Row.mk [], ClubStatus.alreadyMember)] []
    (fun _ h => CallResult.noConfusion h) (fun _ h => CallResult.noConfusion h)).1

/-- `partClassifyRow` in terms of the named field extractors. -/
theorem partClassifyRow_eq (ps : List Participant) (r : Row) :
    partClassifyRow ps r =
      (partClassifyCore ps (partRowName r) (partRowContact r) r.allBlank).map
        (fun s => (r, s)) := rfl

/-- When a raw cell's truthiness survives trimming, trimming after the `||`
fallback equals falling back between the trimmed cells. -/
theorem jsOr_trim_getD (a b : Option String)
    (h : truthy a = truthy (a.map jsTrim)) :
    jsTrim ((jsOr a b).getD "") = (jsOr (a.map jsTrim) (b.map jsTrim)).getD "" := by
  unfold jsOr
  rw [← h]
  cases ha : truthy a with
  | true =>
    cases a with
    | none => simp [truthy] at ha
    | some s => rfl
  | false =>
    cases b with
    | none => rfl
    | some t => rfl

/-- For a whitespace-consistent row, the snapshot key of the participant
created from the raw fields equals the row key used at classification. -/
theorem partCreatedKey_eq (r : Row) (hws : r.wsConsistent) :
    partSnapshotKey ((partCreatedName r).getD "") ((partCreatedContact r).getD "") =
      jsToLower ((partRowName r).getD "") ++ "_" ++ (partRowContact r).getD "" := by
  unfold partSnapshotKey partCreatedName partCreatedContact partRowName partRowContact
  rw [jsOr_trim_getD _ _ hws.1, jsOr_trim_getD _ _ hws.2]

theorem partMapHas_append_left {ps extra : List Participant} {key : String}
    (h : partMapHas ps key = true) : partMapHas (ps ++ extra) key = true := by
  simp only [partMapHas, List.any_append, Bool.or_eq_true]
  exact Or.inl h

theorem partMapHas_of_mem {ps : List Participant} {q : Participant} {key : String}
    (hq : q ∈ ps) (hkey : partSnapshotKey q.name q.contact = key) :
    partMapHas ps key = true := by
  simp only [partMapHas, List.any_eq_true]
  exact ⟨q, hq, by simp [hkey]⟩

/-- Re-import stability for the participants importer: once each `New`
row's created participant (with its raw creation-time fields) is absorbed
into the snapshot, no row of the same whitespace-consistent file classifies
as `New` again. -/
theorem part_reimport_no_new (ps extra : List Participant) (rows : List Row)
    (habs : ∀ r ∈ rows, partClassifyRow ps r = some (r, .newP) →
      ∃ q ∈ extra, q.name = (partCreatedName r).getD "" ∧
        q.contact = (partCreatedContact r).getD "")
    (hws : ∀ r ∈ rows, r.wsConsistent) :
    ∀ pr ∈ partProcessFile (ps ++ extra) rows, pr.2 ≠ PartStatus.newP := by
  intro pr hpr
  obtain ⟨r, hr, hcl⟩ := List.mem_filterMap.mp hpr
  rw [partClassifyRow_eq] at hcl
  cases hcore : partClassifyCore (ps ++ extra) (partRowName r) (partRowContact r)
      r.allBlank with
  | none => rw [hcore] at hcl; simp at hcl
  | some s2 =>
    rw [hcore] at hcl
    obtain rfl := Option.some.inj hcl
    intro hnew2
    simp only at hnew2
    subst hnew2
    unfold partClassifyCore at hcore
    by_cases h1 : (!truthy (partRowName r) && !truthy (partRowContact r) &&
        r.allBlank) = true
    · rw [if_pos h1] at hcore
      exact Option.noConfusion hcore
    · rw [if_neg h1] at hcore
      by_cases h2 : (!truthy (partRowName r) || !truthy (partRowContact r)) = true
      · rw [if_pos h2] at hcore
        simp at hcore
      · rw [if_neg h2] at hcore
        by_cases h3 : partMapHas (ps ++ extra)
            (jsToLower ((partRowName r).getD "") ++ "_" ++ (partRowContact r).getD "") = true
        · rw [if_pos h3] at hcore
          simp at hcore
        · have hps : partMapHas ps
              (jsToLower ((partRowName r).getD "") ++ "_" ++ (partRowContact r).getD "") =
              false := by
            cases hv : partMapHas ps
                (jsToLower ((partRowName r).getD "") ++ "_" ++ (partRowContact r).getD "") with
            | false => rfl
            | true => exact absurd (partMapHas_append_left hv) h3
          have hcl1 : partClassifyRow ps r = some (r, .newP) := by
            rw [partClassifyRow_eq]
            unfold partClassifyCore
            rw [if_neg h1, if_neg h2, if_neg (by simp [hps])]
            rfl
          obtain ⟨q, hq, hqn, hqc⟩ := habs r hr hcl1
          have hkq : partSnapshotKey q.name q.contact =
              jsToLower ((partRowName r).getD "") ++ "_" ++ (partRowContact r).getD "" := by
            rw [hqn, hqc]
            exact partCreatedKey_eq r (hws r hr)
          exact absurd (partMapHas_of_mem (List.mem_append_right ps hq) hkq) h3

/-- Re-import stability for the club importer: with the created
participants appended to the snapshot, their memberships absorbed, and the
memberships attached for `Existing` rows absorbed, no row of the same file
classifies as `New` or `Existing` again. -/
theorem club_reimport_stable (club : Club) (ps created : List Participant)
    (ms ms' : List ClubMembership) (rows : List Row)
    (hsub : ∀ i ∈ clubMemberIds ms club.id, i ∈ clubMemberIds ms' club.id)
    (hcr : ∀ q ∈ created, q.id ∈ clubMemberIds ms' club.id)
    (hnew : ∀ r ∈ rows,
      clubClassifyCore ps (clubMemberIds ms club.id) (r.get "Name") (r.get "Contact") =
        .newP →
      ∃ q ∈ created, some q.name = r.get "Name" ∧ some q.contact = r.get "Contact")
    (hex : ∀ r ∈ rows, ∀ p,
      ps.find? (fun q => some q.name == r.get "Name" && some q.contact == r.get "Contact") =
        some p →
      clubClassifyCore ps (clubMemberIds ms club.id) (r.get "Name") (r.get "Contact") =
        .existingP →
      p.id ∈ clubMemberIds ms' club.id) :
    ∀ pr ∈ clubProcessFile club (ps ++ created) ms' rows,
      pr.2 ≠ ClubStatus.newP ∧ pr.2 ≠ ClubStatus.existingP := by
  intro pr hpr
  obtain ⟨r, hr, hpr'⟩ := List.mem_map.mp hpr
  subst hpr'
  by_cases htr : (!truthy (r.get "Name") || !truthy (r.get "Contact")) = true
  · have hres : clubClassifyCore (ps ++ created) (clubMemberIds ms' club.id)
        (r.get "Name") (r.get "Contact") = .invalid := by
      unfold clubClassifyCore
      rw [if_pos htr]
    exact ⟨by simp [hres], by simp [hres]⟩
  · cases hfind : ps.find? (fun q =>
        some q.name == r.get "Name" && some q.contact == r.get "Contact") with
    | some p =>
      have hfind' : (ps ++ created).find? (fun q =>
          some q.name == r.get "Name" && some q.contact == r.get "Contact") = some p := by
        rw [List.find?_append, hfind]
        rfl
      have hpid : p.id ∈ clubMemberIds ms' club.id := by
        by_cases hmem : p.id ∈ clubMemberIds ms club.id
        · exact hsub _ hmem
        · apply hex r hr p hfind
          unfold clubClassifyCore
          rw [if_neg htr, hfind]
          have hcont : (clubMemberIds ms club.id).contains p.id = false := by
            simpa using hmem
          show (if (clubMemberIds ms club.id).contains p.id = true then
              ClubStatus.alreadyMember else ClubStatus.existingP) = ClubStatus.existingP
          rw [if_neg (by rw [hcont]; simp)]
      have hres : clubClassifyCore (ps ++ created) (clubMemberIds ms' club.id)
          (r.get "Name") (r.get "Contact") = .alreadyMember := by
        unfold clubClassifyCore
        rw [if_neg htr, hfind']
        have hcont : (clubMemberIds ms' club.id).contains p.id = true := by
          simpa using hpid
        show (if (clubMemberIds ms' club.id).contains p.id = true then
            ClubStatus.alreadyMember else ClubStatus.existingP) = ClubStatus.alreadyMember
        rw [if_pos hcont]
      exact ⟨by simp [hres], by simp [hres]⟩
    | none =>
      have hcl1 : clubClassifyCore ps (clubMemberIds ms club.id)
          (r.get "Name") (r.get "Contact") = .newP := by
        unfold clubClassifyCore
        rw [if_neg htr, hfind]
      obtain ⟨q, hq, hqn, hqc⟩ := hnew r hr hcl1
      have hqpred : (fun q' : Participant =>
          some q'.name == r.get "Name" && some q'.contact == r.get "Contact") q = true := by
        rw [← hqn, ← hqc]
        simp
      have hfind2 : (ps ++ created).find? (fun q' =>
          some q'.name == r.get "Name" && some q'.contact == r.get "Contact") =
          created.find? (fun q' =>
            some q'.name == r.get "Name" && some q'.contact == r.get "Contact") := by
        rw [List.find?_append, hfind]
        simp
      cases hcf : created.find? (fun q' =>
          some q'.name == r.get "Name" && some q'.contact == r.get "Contact") with
      | none => exact absurd hqpred (by simpa using List.find?_eq_none.mp hcf q hq)
      | some p' =>
        have hp'id : p'.id ∈ clubMemberIds ms' club.id :=
          hcr p' (List.mem_of_find?_eq_some hcf)
        have hres : clubClassifyCore (ps ++ created) (clubMemberIds ms' club.id)
            (r.get "Name") (r.get "Contact") = .alreadyMember := by
          unfold clubClassifyCore
          rw [if_neg htr, hfind2, hcf]
          have hcont : (clubMemberIds ms' club.id).contains p'.id = true := by
            simpa using hp'id
          show (if (clubMemberIds ms' club.id).contains p'.id = true then
              ClubStatus.alreadyMember else ClubStatus.existingP) = ClubStatus.alreadyMember
          rw [if_pos hcont]
        exact ⟨by simp [hres], by simp [hres]⟩

/-- **C6** is false on the code: a row whose `NAMES` cell is whitespace-only
falls back to `Name` at classification (trimmed) but not at creation (raw),
so the participant created by executing the import carries the raw
whitespace name and re-classifying the same file against the absorbed
snapshot yields `New Participant` again (one `New`, not zero). -/
theorem c6_counterexample :
    partProcessFile [] [Row.mk [("NAMES", " "), ("Name", "Bob"), ("CONTACT", "1")]] =
      [(Row.mk [("NAMES", " "), ("Name", "Bob"), ("CONTACT", "1")], PartStatus.newP)] ∧
    partCreatedName (Row.mk [("NAMES", " "), ("Name", "Bob"), ("CONTACT", "1")]) =
      some " " ∧
    partCreatedContact (Row.mk [("NAMES", " "), ("Name", "Bob"), ("CONTACT", "1")]) =
      some "1" ∧
    partProcessFile [Participant.mk "9" " " "1" "N/A"]
        [Row.mk [("NAMES", " "), ("Name", "Bob"), ("CONTACT", "1")]] =
      [(Row.mk [("NAMES", " "), ("Name", "Bob"), ("CONTACT", "1")], PartStatus.newP)] := by
  decide

/-- **C6** (amended): re-import is idempotent provided no row has a
whitespace-only `NAMES`/`CONTACT` cell that falls back to another column
(raw and trimmed truthiness agree).  Participants importer: once every
`New` row's created participant — carrying the raw creation-time
name/contact — is absorbed into the snapshot, re-classifying the same file
yields zero `New` rows.  Club importer: with the created participants
appended to the snapshot and all membership writes absorbed, re-classifying
the same file yields zero `New` and zero `Existing` rows. -/
theorem c6_reimport_idempotence :
    (∀ (ps extra : List Participant) (rows : List Row),
      (∀ r ∈ rows, partClassifyRow ps r = some (r, .newP) →
        ∃ q ∈ extra, q.name = (partCreatedName r).getD "" ∧
          q.contact = (partCreatedContact r).getD "") →
      (∀ r ∈ rows, r.wsConsistent) →
      ∀ pr ∈ partProcessFile (ps ++ extra) rows, pr.2 ≠ PartStatus.newP) ∧
    (∀ (club : Club) (ps created : List Participant)
        (ms ms' : List ClubMembership) (rows : List Row),
      (∀ i ∈ clubMemberIds ms club.id, i ∈ clubMemberIds ms' club.id) →
      (∀ q ∈ created, q.id ∈ clubMemberIds ms' club.id) →
      (∀ r ∈ rows,
        clubClassifyCore ps (clubMemberIds ms club.id) (r.get "Name") (r.get "Contact") =
          .newP →
        ∃ q ∈ created, some q.name = r.get "Name" ∧ some q.contact = r.get "Contact") →
      (∀ r ∈ rows, ∀ p,
        ps.find? (fun q =>
          some q.name == r.get "Name" && some q.contact == r.get "Contact") = some p →
        clubClassifyCore ps (clubMemberIds ms club.id) (r.get "Name") (r.get "Contact") =
          .existingP →
        p.id ∈ clubMemberIds ms' club.id) →
      ∀ pr ∈ clubProcessFile club (ps ++ created) ms' rows,
        pr.2 ≠ ClubStatus.newP ∧ pr.2 ≠ ClubStatus.existingP) :=
  ⟨part_reimport_no_new, club_reimport_stable⟩

/-- Witness for C6 (amended): a one-row file, created and absorbed, no
longer classifies as `New` on the second run. -/
theorem c6_reimport_idempotence_witness :
    (Row.mk [("NAMES", "Bob"), ("CONTACT", "1")], PartStatus.alreadyExists).2 ≠
      PartStatus.newP :=
  c6_reimport_idempotence.1 [] [Participant.mk "9" "Bob" "1" "N/A"]
    [Row.mk [("NAMES", "Bob"), ("CONTACT", "1")]] (by decide)
    (by
      intro r hr
      rcases List.mem_singleton.mp hr with rfl
      exact ⟨rfl, rfl⟩)
    (Row.mk [("NAMES", "Bob"), ("CONTACT", "1")], PartStatus.alreadyExists) (by decide)

end YinPims
